import Mathlib

/-!
Verification development for the options-signal-bot repository.

The signal computation pipeline is shallowly embedded:
* `Val` models the JSON scalar values a provider record can hold
  (absent keys and JSON null both come out of Python's `dict.get` as
  `None`, embedded as `Val.vnull`).
* Machine floats are embedded as exact rationals `ℚ`; Python integers as `ℤ`.
* Fallible Python code is embedded as `Option`/`Except`: an uncaught
  exception escaping a function is an `Except.error` carrying the
  exception class name.
* Calendar dates are embedded by their rata-die day number (`ℤ`); the
  evaluation date (`dt.date.today()` in the source) is an explicit
  `today : ℤ` parameter.

The functions mirror `src/options_api.py` (`parse_option_contract`,
`extract_underlying_price_from_chain`), `src/signals.py`
(`analyze_stock_trend`, `_days_to_expiry`, `pick_option_for_trend`),
`src/config.py` (the constants) and the per-ticker step of
`src/main.py` (`run`).  The indicator module (`sma`, `rsi`) is not part
of the sources; those two functions are modelled from the spec and are
marked as such.
-/

namespace OptionsBot

/-- JSON scalar values as seen by the Python code: `vnull` stands both for a
JSON `null` and for an absent key (Python's `dict.get` returns `None` for
both), `vnum` for an int/float, `vstr` for a string. -/
inductive Val where
  | vnull
  | vnum (q : ℚ)
  | vstr (s : String)
deriving DecidableEq

/-- Python truthiness of a scalar: `None`, `0` and `""` are falsy. -/
def pyTruthy : Val → Prop
  | .vnull => False
  | .vnum q => q ≠ 0
  | .vstr s => s ≠ ""

instance : DecidablePred pyTruthy := fun v =>
  match v with
  | .vnull => inferInstanceAs (Decidable False)
  | .vnum q => inferInstanceAs (Decidable (q ≠ 0))
  | .vstr s => inferInstanceAs (Decidable (s ≠ ""))

/-- Numeric value of a list of decimal digit characters. -/
def digitsToNat (cs : List Char) : ℕ :=
  cs.foldl (fun a c => a * 10 + (c.toNat - 48)) 0

/-- Strip leading and trailing whitespace (Python `str.strip()` as performed
by `int`/`float` on their string argument). -/
def trimChars (cs : List Char) : List Char :=
  ((cs.dropWhile Char.isWhitespace).reverse.dropWhile Char.isWhitespace).reverse

/-- Python `int(str)`: optional surrounding whitespace, optional sign, then a
non-empty run of digits.  (Underscore separators accepted by CPython are not
modelled.) -/
def parseIntStr (s : String) : Option ℤ :=
  let cs := trimChars s.toList
  let sgn : ℤ := match cs with
    | '-' :: _ => -1
    | _ => 1
  let ds := match cs with
    | '+' :: r => r
    | '-' :: r => r
    | r => r
  if ds ≠ [] ∧ ds.all Char.isDigit then some (sgn * (digitsToNat ds : ℤ)) else none

/-- Python `float(str)`: optional whitespace and sign, a mantissa with digits
on at least one side of an optional point, and an optional exponent.
(`inf`, `nan` and underscore separators are not modelled.) -/
def parseFloatStr (s : String) : Option ℚ :=
  let cs := trimChars s.toList
  let sgn : ℚ := match cs with
    | '-' :: _ => -1
    | _ => 1
  let cs1 := match cs with
    | '+' :: r => r
    | '-' :: r => r
    | r => r
  let ip := cs1.takeWhile Char.isDigit
  let cs2 := cs1.dropWhile Char.isDigit
  let fp := match cs2 with
    | '.' :: r => r.takeWhile Char.isDigit
    | _ => []
  let cs3 := match cs2 with
    | '.' :: r => r.dropWhile Char.isDigit
    | _ => cs2
  if ip = [] ∧ fp = [] then none
  else
    let mant : ℚ := (digitsToNat (ip ++ fp) : ℚ) / (10 : ℚ) ^ fp.length
    match cs3 with
    | [] => some (sgn * mant)
    | 'e' :: r =>
      let esgn : ℤ := match r with
        | '-' :: _ => -1
        | _ => 1
      let eds := match r with
        | '+' :: t => t
        | '-' :: t => t
        | t => t
      if eds ≠ [] ∧ eds.all Char.isDigit then
        some (sgn * mant * (10 : ℚ) ^ (esgn * (digitsToNat eds : ℤ)))
      else none
    | 'E' :: r =>
      let esgn : ℤ := match r with
        | '-' :: _ => -1
        | _ => 1
      let eds := match r with
        | '+' :: t => t
        | '-' :: t => t
        | t => t
      if eds ≠ [] ∧ eds.all Char.isDigit then
        some (sgn * mant * (10 : ℚ) ^ (esgn * (digitsToNat eds : ℤ)))
      else none
    | _ => none

/-- Python `float(x)` on a scalar, `none` when it raises
`TypeError`/`ValueError` (always caught at its call sites in the source). -/
def pyFloat : Val → Option ℚ
  | .vnum q => some q
  | .vstr s => parseFloatStr s
  | .vnull => none

/-- Truncation toward zero, the behaviour of Python `int(float)`. -/
def truncQ (q : ℚ) : ℤ := if 0 ≤ q then ⌊q⌋ else ⌈q⌉

/-- Python `int(x)` on a scalar, `none` when it raises
`TypeError`/`ValueError` (caught at its call site in the source). -/
def pyInt : Val → Option ℤ
  | .vnum q => some (truncQ q)
  | .vstr s => parseIntStr s
  | .vnull => none

/-- Python `a or b` on scalars (`b` when `a` is falsy). -/
def orVal (a b : Val) : Val := if pyTruthy a then a else b

/-- Python `a or b` where `a` is a float-or-`None` and the result feeds a
`None` check: `b` when `a` is `None` or `0.0`. -/
def orOpt (a b : Option ℚ) : Option ℚ :=
  match a with
  | some x => if x = 0 then b else some x
  | none => b

/-! ### Calendar dates

`_days_to_expiry` in `src/signals.py` parses `"%Y-%m-%d"` with
`datetime.strptime` and subtracts `date.today()`.  Dates are embedded as
rata-die day numbers so that the subtraction is integer subtraction. -/

/-- Gregorian leap year. -/
def isLeap (y : ℤ) : Prop := (y % 4 = 0 ∧ y % 100 ≠ 0) ∨ y % 400 = 0

instance : DecidablePred isLeap := fun y =>
  inferInstanceAs (Decidable ((y % 4 = 0 ∧ y % 100 ≠ 0) ∨ y % 400 = 0))

/-- Length of a month, as validated by `datetime.date`. -/
def daysInMonth (y m : ℤ) : ℤ :=
  if m = 2 then (if isLeap y then 29 else 28)
  else if m = 4 ∨ m = 6 ∨ m = 9 ∨ m = 11 then 30
  else 31

/-- Parse a one- or two-digit numeric field of `strptime` (its `%m`/`%d`
patterns): consume at most two leading digits, whose value must lie in
`[1, bound]`; returns the value and the unconsumed characters. -/
def parseField2 (bound : ℕ) (cs : List Char) : Option (ℕ × List Char) :=
  let run := cs.takeWhile Char.isDigit
  let t := min 2 run.length
  if t = 0 then none
  else
    let v := digitsToNat (cs.take t)
    if 1 ≤ v ∧ v ≤ bound then some (v, cs.drop t) else none

/-- `datetime.strptime(s, "%Y-%m-%d").date()`: a four-digit year, dashes, a
month in 1..12, a day in 1..31, no trailing characters; `datetime` further
requires year ≥ 1 and the day to exist in the month. -/
def parseDateYMD (s : String) : Option (ℤ × ℤ × ℤ) :=
  let cs := s.toList
  let y4 := cs.take 4
  if y4.length = 4 ∧ y4.all Char.isDigit ∧ 1 ≤ digitsToNat y4 then
    match cs.drop 4 with
    | '-' :: r1 =>
      match parseField2 12 r1 with
      | some (m, r2) =>
        (match r2 with
         | '-' :: r3 =>
           match parseField2 31 r3 with
           | some (d, r4) =>
             if r4 = [] ∧ (d : ℤ) ≤ daysInMonth (digitsToNat y4 : ℤ) (m : ℤ) then
               some ((digitsToNat y4 : ℤ), (m : ℤ), (d : ℤ))
             else none
           | none => none
         | _ => none)
      | none => none
    | _ => none
  else none

/-- Rata-die day number of a civil date (days since 1970-01-01, Howard
Hinnant's `days_from_civil`); all divisions act on non-negative operands for
the dates `parseDateYMD` can produce. -/
def daysFromCivil (y m d : ℤ) : ℤ :=
  let y1 := if m ≤ 2 then y - 1 else y
  let era := y1 / 400
  let yoe := y1 - era * 400
  let mp := (m + 9) % 12
  let doy := (153 * mp + 2) / 5 + d - 1
  let doe := yoe * 365 + yoe / 4 - yoe / 100 + doy
  era * 146097 + doe - 719468

/-- Day number of a `"%Y-%m-%d"` string, `none` when parsing fails. -/
def parseDateDays (s : String) : Option ℤ :=
  (parseDateYMD s).map (fun t => daysFromCivil t.1 t.2.1 t.2.2)

/-- `_days_to_expiry` from `src/signals.py`: `(strptime(e).date() - today).days`,
with every exception (including the `TypeError` on a non-string argument)
caught and turned into `None`. -/
def daysToExpiry (today : ℤ) (v : Val) : Option ℤ :=
  match v with
  | .vstr s => (parseDateDays s).map (fun n => n - today)
  | _ => none

/-! ### Raw provider records and normalization (`src/options_api.py`) -/

/-- Relevant scalar fields of one raw option snapshot record.  The source
reads them through `contract.get("details") or {}` etc., so an absent or
null sub-object is the same as a sub-object whose fields are all null;
the sub-objects are therefore flattened into their scalar leaves. -/
structure RawRecord where
  details_ticker : Val
  details_symbol : Val
  details_contract_type : Val
  details_expiration_date : Val
  details_strike_price : Val
  greeks_delta : Val
  greeks_theta : Val
  greeks_gamma : Val
  greeks_vega : Val
  implied_volatility : Val
  open_interest : Val
  bid_price : Val
  ask_price : Val
  last_trade_price : Val
  und_session_close_price : Val
  und_last_trade_price : Val
deriving DecidableEq

/-- A raw record with every field null/absent (witness-building helper). -/
def nullRaw : RawRecord :=
  ⟨.vnull, .vnull, .vnull, .vnull, .vnull, .vnull, .vnull, .vnull, .vnull,
   .vnull, .vnull, .vnull, .vnull, .vnull, .vnull, .vnull⟩

/-- Normalized contract produced by `parse_option_contract`. -/
structure NormContract where
  symbol : Val
  contract_type : Val
  expiration_date : Val
  strike_price : Option ℚ
  delta : Option ℚ
  theta : Option ℚ
  gamma : Option ℚ
  vega : Option ℚ
  implied_volatility : Option ℚ
  open_interest : ℤ
  mark : Option ℚ
deriving DecidableEq

/-- `_float_or_none` from `src/options_api.py`: `float(val) if val is not
None else None`, with `TypeError`/`ValueError` caught to `None`. -/
def floatOrNone (v : Val) : Option ℚ :=
  match v with
  | .vnull => none
  | v => pyFloat v

/-- The fallback branch of the mark derivation: `last_trade.get("price")`,
converted with `float` when present (conversion failure caught to `None`). -/
def lastTradeMark (price : Val) : Option ℚ :=
  match price with
  | .vnull => none
  | p => pyFloat p

/-- The mark derivation of `parse_option_contract`: when bid and ask are both
non-`None` the source evaluates `ask > 0` outside any `try` block, so a
non-numeric ask raises an uncaught `TypeError`; with a numeric positive ask
the midpoint is computed under `try` (conversion failure caught to `None`,
with no fallback to the last trade); otherwise the last-trade price is used. -/
def deriveMark (bid ask price : Val) : Except String (Option ℚ) :=
  match bid, ask with
  | .vnull, _ => .ok (lastTradeMark price)
  | _, .vnull => .ok (lastTradeMark price)
  | b, .vnum a =>
    .ok (if 0 < a then
      (match pyFloat b, pyFloat (.vnum a) with
       | some bq, some aq => some ((bq + aq) / 2)
       | _, _ => none)
      else lastTradeMark price)
  | _, .vstr _ => .error "TypeError"

/-- `parse_option_contract` from `src/options_api.py`.  Total except for the
uncaught `TypeError` in the mark derivation (see `deriveMark`). -/
def parseOptionContract (r : RawRecord) : Except String NormContract :=
  match deriveMark r.bid_price r.ask_price r.last_trade_price with
  | .error e => .error e
  | .ok mark =>
    .ok {
      symbol := orVal r.details_ticker r.details_symbol
      contract_type := r.details_contract_type
      expiration_date := r.details_expiration_date
      strike_price :=
        (match r.details_strike_price with
         | .vnull => none
         | v => pyFloat v)
      delta := floatOrNone r.greeks_delta
      theta := floatOrNone r.greeks_theta
      gamma := floatOrNone r.greeks_gamma
      vega := floatOrNone r.greeks_vega
      implied_volatility := floatOrNone r.implied_volatility
      open_interest :=
        (if pyTruthy r.open_interest then (pyInt r.open_interest).getD 0 else 0)
      mark := mark }

/-- `extract_underlying_price_from_chain` from `src/options_api.py`: first
convertible `underlying_asset.session.close_price`, else that record's
`underlying_asset.last_trade.price`, else continue down the chain. -/
def extractUnderlying : List RawRecord → Option ℚ
  | [] => none
  | r :: rest =>
    match (match r.und_session_close_price with
           | .vnull => none
           | v => pyFloat v) with
    | some f => some f
    | none =>
      match (match r.und_last_trade_price with
             | .vnull => none
             | v => pyFloat v) with
      | some f => some f
      | none => extractUnderlying rest

/-! ### Configuration (`src/config.py`) -/

/-- The configuration constants consumed by the signal pipeline. -/
structure Config where
  MA_SHORT : ℕ
  MA_LONG : ℕ
  RSI_PERIOD : ℕ
  MIN_DTE : ℤ
  MAX_DTE : ℤ
  TARGET_DELTA_CALL : ℚ
  TARGET_DELTA_PUT : ℚ
  MIN_OPEN_INTEREST : ℤ
deriving DecidableEq

/-- The concrete values from `src/config.py`. -/
def config : Config :=
  { MA_SHORT := 10
    MA_LONG := 20
    RSI_PERIOD := 14
    MIN_DTE := 10
    MAX_DTE := 60
    TARGET_DELTA_CALL := 0.35
    TARGET_DELTA_PUT := -0.35
    MIN_OPEN_INTEREST := 100 }

/-! ### Indicators and trend analysis (`src/signals.py`)

The module `indicators` that `src/signals.py` imports (`sma`, `rsi`) is not
among the sources; its two functions are modelled from the spec (§4.1).
`analyze_stock_trend` reads only the latest value of each indicator series,
so the model computes that latest value directly; an indicator that is
undefined at the latest index (series shorter than the window) is `none`,
and—as for the float NaN such an undefined entry becomes in the pandas
implementation the source relies on—every comparison against it is false. -/

/-- Modelled from the spec: `simple_moving_average(closes, window)` for the
missing `indicators.sma`, evaluated at the last index, which is defined
exactly when the series has at least `window` elements (window ≥ 1):
the mean of the trailing `window` closes. -/
def smaLast (window : ℕ) (closes : List ℚ) : Option ℚ :=
  if closes.length < window ∨ window = 0 then none
  else some ((closes.drop (closes.length - window)).sum / (window : ℚ))

/-- Consecutive differences of a series (the per-step price deltas). -/
def diffs : List ℚ → List ℚ
  | a :: b :: t => (b - a) :: diffs (b :: t)
  | _ => []

/-- Modelled from the spec: Wilder-style `rsi(closes, period)` for the
missing `indicators.rsi`, evaluated at the last index, defined exactly when
the series has at least `period + 1` points (period ≥ 1): average gain and
loss over the trailing `period` deltas, RSI = 100 − 100/(1+RS), with the
spec's conventions RSI = 100 when avg_loss = 0 < avg_gain and RSI = 50 when
both averages are 0. -/
def rsiLast (period : ℕ) (closes : List ℚ) : Option ℚ :=
  if closes.length < period + 1 ∨ period = 0 then none
  else
    let ds := (diffs closes).drop ((closes.length - 1) - period)
    let avgGain := (ds.map (fun d => max d 0)).sum / (period : ℚ)
    let avgLoss := (ds.map (fun d => max (-d) 0)).sum / (period : ℚ)
    some (if avgLoss = 0 then (if 0 < avgGain then 100 else 50)
          else 100 - 100 / (1 + avgGain / avgLoss))

/-- Float comparison `a > b` where either side may be an undefined (NaN-like)
indicator value: false unless both are defined. -/
def oGT : Option ℚ → Option ℚ → Prop
  | some a, some b => b < a
  | _, _ => False

instance : ∀ a b, Decidable (oGT a b) := fun a b =>
  match a, b with
  | some x, some y => inferInstanceAs (Decidable (y < x))
  | some _, none => inferInstanceAs (Decidable False)
  | none, _ => inferInstanceAs (Decidable False)

/-- Float comparison `a < b` with possibly-undefined operands. -/
def oLT : Option ℚ → Option ℚ → Prop
  | some a, some b => a < b
  | _, _ => False

instance : ∀ a b, Decidable (oLT a b) := fun a b =>
  match a, b with
  | some x, some y => inferInstanceAs (Decidable (x < y))
  | some _, none => inferInstanceAs (Decidable False)
  | none, _ => inferInstanceAs (Decidable False)

/-- Chained float comparison `lo <= v <= hi` with a possibly-undefined `v`. -/
def oBetween (lo : ℚ) (v : Option ℚ) (hi : ℚ) : Prop
  := match v with
  | some x => lo ≤ x ∧ x ≤ hi
  | none => False

instance (lo : ℚ) (v : Option ℚ) (hi : ℚ) : Decidable (oBetween lo v hi) :=
  match v with
  | some x => inferInstanceAs (Decidable (lo ≤ x ∧ x ≤ hi))
  | none => inferInstanceAs (Decidable False)

/-- Result dictionary of `analyze_stock_trend`; in the `no_data` case the
source returns only the `trend` key, so every other field is absent. -/
structure TrendResult where
  trend : String
  latest_close : Option ℚ
  sma_short : Option ℚ
  sma_long : Option ℚ
  rsi : Option ℚ
deriving DecidableEq

/-- `analyze_stock_trend` from `src/signals.py`, as a function of the close
series (the source fetches it over HTTP; an empty frame is an empty list). -/
def analyzeStockTrend (cfg : Config) (closes : List ℚ) : TrendResult :=
  if closes = [] then
    { trend := "no_data", latest_close := none, sma_short := none
      sma_long := none, rsi := none }
  else
    let s := smaLast cfg.MA_SHORT closes
    let l := smaLast cfg.MA_LONG closes
    let r := rsiLast cfg.RSI_PERIOD closes
    { trend :=
        if oGT s l ∧ oBetween 40 r 70 then "bullish"
        else if oLT s l ∧ oBetween 30 r 60 then "bearish"
        else "neutral"
      latest_close := closes.getLast?
      sma_short := s
      sma_long := l
      rsi := r }

/-! ### Contract filtering, selection and projection (`src/signals.py`) -/

/-- A normalized contract that passed the filter, together with its derived
`dte` (the source's `{**c, "dte": dte}`). -/
structure EligContract where
  c : NormContract
  dte : ℤ
deriving DecidableEq

/-- The loop body of the normalize-and-filter pass in
`pick_option_for_trend`: `none` exactly when one of the `continue` guards
fires for this contract. -/
def processContract (cfg : Config) (today : ℤ) (c : NormContract) :
    Option EligContract :=
  if ¬ pyTruthy c.expiration_date ∨ c.strike_price = none then none
  else
    match daysToExpiry today c.expiration_date with
    | none => none
    | some dte =>
      if dte < cfg.MIN_DTE ∨ cfg.MAX_DTE < dte then none
      else if c.open_interest < cfg.MIN_OPEN_INTEREST then none
      else
        match c.delta, c.mark with
        | some _, some m => if m ≤ 0 then none else some ⟨c, dte⟩
        | _, _ => none

/-- The normalize-and-filter loop of `pick_option_for_trend` over the raw
chain: each record is parsed (which can raise, aborting the whole call) and
kept when no filter guard fires. -/
def parseChain (cfg : Config) (today : ℤ) :
    List RawRecord → Except String (List EligContract)
  | [] => .ok []
  | r :: rest =>
    match parseOptionContract r with
    | .error e => .error e
    | .ok c =>
      match parseChain cfg today rest with
      | .error e => .error e
      | .ok tail =>
        match processContract cfg today c with
        | none => .ok tail
        | some ec => .ok (ec :: tail)

/-- `delta_distance` from `pick_option_for_trend`:
`abs((c["delta"] or 0) - target_delta)`. -/
def deltaDistance (target : ℚ) (e : EligContract) : ℚ :=
  |e.c.delta.getD 0 - target|

/-- The sort key ordering of `parsed.sort(key=lambda c: (delta_distance(c),
c["dte"]))`: lexicographic on (delta distance, dte). -/
def keyRel (target : ℚ) (a b : EligContract) : Prop :=
  deltaDistance target a < deltaDistance target b ∨
    (deltaDistance target a = deltaDistance target b ∧ a.dte ≤ b.dte)

instance (target : ℚ) : DecidableRel (keyRel target) := fun a b =>
  inferInstanceAs (Decidable (deltaDistance target a < deltaDistance target b ∨
    (deltaDistance target a = deltaDistance target b ∧ a.dte ≤ b.dte)))

instance (target : ℚ) : IsTotal EligContract (keyRel target) where
  total a b := by
    rcases lt_trichotomy (deltaDistance target a) (deltaDistance target b) with h | h | h
    · exact Or.inl (Or.inl h)
    · rcases le_total a.dte b.dte with h2 | h2
      · exact Or.inl (Or.inr ⟨h, h2⟩)
      · exact Or.inr (Or.inr ⟨h.symm, h2⟩)
    · exact Or.inr (Or.inl h)

instance (target : ℚ) : IsTrans EligContract (keyRel target) where
  trans a b c hab hbc := by
    rcases hab with h1 | ⟨h1, h1d⟩ <;> rcases hbc with h2 | ⟨h2, h2d⟩
    · exact Or.inl (h1.trans h2)
    · exact Or.inl (lt_of_lt_of_eq h1 h2)
    · exact Or.inl (lt_of_eq_of_lt h1 h2)
    · exact Or.inr ⟨h1.trans h2, h1d.trans h2d⟩

/-- `parsed.sort(key=...)` followed by `parsed[0]`: the head of the list
stably sorted by the lexicographic key. -/
def selectBest (target : ℚ) (parsed : List EligContract) : Option EligContract :=
  (parsed.insertionSort (keyRel target)).head?

/-- The signal dictionary returned by `pick_option_for_trend`. -/
structure Signal where
  ticker : String
  trend : String
  underlying_price : Option ℚ
  option_symbol : Val
  contract_type : Val
  strike_price : Option ℚ
  expiration_date : Val
  delta : Option ℚ
  open_interest : ℤ
  mark : Option ℚ
  dte : ℤ
  projected_underlying_change : Option ℚ
  projected_option_change : Option ℚ
  projected_return_pct : Option ℚ
deriving DecidableEq

/-- Assembly of the returned signal dictionary at the end of
`pick_option_for_trend`, including the projected-profitability fields:
`projected_underlying_change` whenever the underlying price is known, and
the other two only when additionally `best["mark"]` is truthy. -/
def mkSignal (ticker trend : String) (underlying : Option ℚ)
    (best : EligContract) : Signal :=
  let movePct : ℚ := if trend = "bearish" then -0.05 else 0.05
  let base : Signal :=
    { ticker := ticker
      trend := trend
      underlying_price := underlying
      option_symbol := best.c.symbol
      contract_type := best.c.contract_type
      strike_price := best.c.strike_price
      expiration_date := best.c.expiration_date
      delta := best.c.delta
      open_interest := best.c.open_interest
      mark := best.c.mark
      dte := best.dte
      projected_underlying_change := none
      projected_option_change := none
      projected_return_pct := none }
  match underlying, best.c.mark with
  | some u, some m =>
    if m ≠ 0 then
      let puc := u * movePct
      let poc := best.c.delta.getD 0 * puc
      { base with
        projected_underlying_change := some puc
        projected_option_change := some poc
        projected_return_pct := some (poc / m * 100) }
    else { base with projected_underlying_change := some (u * movePct) }
  | some u, none => { base with projected_underlying_change := some (u * movePct) }
  | none, _ => base

/-- `pick_option_for_trend` from `src/signals.py`, as a function of the
fetched chain (the source fetches it over HTTP) and of the evaluation date. -/
def pickOptionForTrend (cfg : Config) (today : ℤ) (ticker : String)
    (trendInfo : TrendResult) (chain : List RawRecord) :
    Except String (Option Signal) :=
  if trendInfo.trend ≠ "bullish" ∧ trendInfo.trend ≠ "bearish" then .ok none
  else if chain = [] then .ok none
  else
    match parseChain cfg today chain with
    | .error e => .error e
    | .ok parsed =>
      if parsed = [] then .ok none
      else
        match selectBest
            (if (if trendInfo.trend = "bullish" then "call" else "put") = "call"
             then cfg.TARGET_DELTA_CALL else cfg.TARGET_DELTA_PUT) parsed with
        | none => .ok none
        | some best =>
          .ok (some (mkSignal ticker trendInfo.trend
            (orOpt (extractUnderlying chain) trendInfo.latest_close) best))

/-- The per-ticker step of `run` in `src/main.py`: analyze the trend, skip
the ticker unless it is bullish or bearish, otherwise pick a contract. -/
def runTicker (cfg : Config) (today : ℤ) (ticker : String) (closes : List ℚ)
    (chain : List RawRecord) : Except String (Option Signal) :=
  let trendInfo := analyzeStockTrend cfg closes
  if trendInfo.trend = "bullish" ∨ trendInfo.trend = "bearish" then
    pickOptionForTrend cfg today ticker trendInfo chain
  else .ok none

/-! ### Spec-side comparison definitions and predicates on raw fields -/

/-- Mark derivation as the spec states it (the spec-side definition for the
refinement comparison of claim C4): bid/ask midpoint when both are present
and ask > 0, else the last traded price when present, else absent. -/
def markSpec (bid ask last : Option ℚ) : Option ℚ :=
  match bid, ask with
  | some b, some a => if 0 < a then some ((b + a) / 2) else last
  | _, _ => last

/-- The numeric value of a scalar field, `none` for null/absent or a string. -/
def asNum : Val → Option ℚ
  | .vnum q => some q
  | _ => none

/-- The field is a number or is null/absent (not a string). -/
def numOrNull : Val → Prop
  | .vstr _ => False
  | _ => True

instance : DecidablePred numOrNull := fun v =>
  match v with
  | .vnull => inferInstanceAs (Decidable True)
  | .vnum _ => inferInstanceAs (Decidable True)
  | .vstr _ => inferInstanceAs (Decidable False)

/-- The field is a non-negative number or is null/absent. -/
def nonnegOrNull : Val → Prop
  | .vnull => True
  | .vnum q => 0 ≤ q
  | .vstr _ => False

instance : DecidablePred nonnegOrNull := fun v =>
  match v with
  | .vnull => inferInstanceAs (Decidable True)
  | .vnum q => inferInstanceAs (Decidable (0 ≤ q))
  | .vstr _ => inferInstanceAs (Decidable False)

/-! ### Concrete evaluation inputs for the witnesses -/

/-- The evaluation date used by the concrete witnesses. -/
def today0 : ℤ := daysFromCivil 2026 10 12

/-- A raw call contract: quote 2.40/2.60 (mark 2.50), delta 0.30, open
interest 500, strike 150, thirty days to expiry, underlying session close
100. -/
def raw100 : RawRecord :=
  { nullRaw with
    details_ticker := .vstr "O:AAPL261111C00150000"
    details_contract_type := .vstr "call"
    details_expiration_date := .vstr "2026-11-11"
    details_strike_price := .vnum 150
    greeks_delta := .vnum 0.3
    open_interest := .vnum 500
    bid_price := .vnum 2.4
    ask_price := .vnum 2.6
    und_session_close_price := .vnum 100 }

/-- The normalized form of `raw100`. -/
def norm100 : NormContract :=
  { symbol := .vstr "O:AAPL261111C00150000"
    contract_type := .vstr "call"
    expiration_date := .vstr "2026-11-11"
    strike_price := some 150
    delta := some 0.3
    theta := none
    gamma := none
    vega := none
    implied_volatility := none
    open_interest := 500
    mark := some 2.5 }

/-- `norm100` with its derived days-to-expiry. -/
def elig100 : EligContract := ⟨norm100, 30⟩

/-- A bullish trend result feeding the concrete pipeline witnesses. -/
def trendInfo0 : TrendResult :=
  { trend := "bullish", latest_close := some 100
    sma_short := some 101, sma_long := some 100, rsi := some 55 }

/-- The signal the pipeline produces from `trendInfo0` and `[raw100]`:
projected underlying change 5.0, option change 1.5, return 60%. -/
def sig100 : Signal :=
  { ticker := "AAPL"
    trend := "bullish"
    underlying_price := some 100
    option_symbol := .vstr "O:AAPL261111C00150000"
    contract_type := .vstr "call"
    strike_price := some 150
    expiration_date := .vstr "2026-11-11"
    delta := some 0.3
    open_interest := 500
    mark := some 2.5
    dte := 30
    projected_underlying_change := some 5
    projected_option_change := some 1.5
    projected_return_pct := some 60 }

/-- An eligible test contract with the given delta and a unit mark. -/
def testContract (delta : ℚ) : NormContract :=
  { symbol := .vstr "X"
    contract_type := .vstr "call"
    expiration_date := .vstr "2026-11-11"
    strike_price := some 150
    delta := some delta
    theta := none
    gamma := none
    vega := none
    implied_volatility := none
    open_interest := 500
    mark := some 1 }

/-- Eligible contract with delta 0.30 and dte 30. -/
def eligFar : EligContract := ⟨testContract 0.3, 30⟩

/-- Eligible contract with delta 0.40 and dte 15. -/
def eligNear : EligContract := ⟨testContract 0.4, 15⟩

/-- Raw record with bid 1.00 and ask 1.20 (midpoint 1.10). -/
def rawMid : RawRecord :=
  { nullRaw with bid_price := .vnum 1, ask_price := .vnum 1.2 }

/-- Raw record with no quote and last trade 1.05. -/
def rawLast : RawRecord :=
  { nullRaw with last_trade_price := .vnum 1.05 }

/-- Raw record with a zero ask and last trade 1.05. -/
def rawZeroAsk : RawRecord :=
  { nullRaw with bid_price := .vnum 1, ask_price := .vnum 0
                 last_trade_price := .vnum 1.05 }

/-- Raw record whose ask is a non-numeric string while the bid is present:
the input on which `parse_option_contract` raises. -/
def rawStrAsk : RawRecord :=
  { nullRaw with bid_price := .vnum 1, ask_price := .vstr "x" }

/-- Raw record with a negative bid: its midpoint mark is negative. -/
def rawNegQuote : RawRecord :=
  { nullRaw with bid_price := .vnum (-10), ask_price := .vnum 5 }

/-- Raw record whose open-interest field is a non-numeric string. -/
def rawOiBad : RawRecord :=
  { nullRaw with open_interest := .vstr "abc" }

/-- The normalized form of `rawOiBad`: everything absent, open interest
defaulted to 0. -/
def normOiBad : NormContract :=
  { symbol := .vnull, contract_type := .vnull, expiration_date := .vnull
    strike_price := none, delta := none, theta := none, gamma := none
    vega := none, implied_volatility := none, open_interest := 0
    mark := none }

/-- A one-element close series (non-empty, shorter than `MA_LONG`). -/
def closes1 : List ℚ := [100]

/-- Twenty constant closes: long enough for every indicator; RSI is 50 by
the flat-market convention and both moving averages are 100. -/
def closes20 : List ℚ :=
  [100, 100, 100, 100, 100, 100, 100, 100, 100, 100,
   100, 100, 100, 100, 100, 100, 100, 100, 100, 100]

/-! ### Helper lemmas -/

@[simp]
theorem oGT_none_right (a : Option ℚ) : ¬ oGT a none := by
  cases a <;> simp [oGT]

@[simp]
theorem oLT_none_right (a : Option ℚ) : ¬ oLT a none := by
  cases a <;> simp [oLT]

theorem smaLast_eq_none {w : ℕ} {closes : List ℚ} (h : closes.length < w) :
    smaLast w closes = none := by
  simp only [smaLast, if_pos (Or.inl h)]

/-! ### Claim theorems -/

/-- Claim C1: for every latest indicator triple (sma_short, sma_long, rsi)
computed from a sufficient price series, the trend label is "bullish" iff
sma_short > sma_long and 40 ≤ rsi ≤ 70, "bearish" iff sma_short < sma_long
and 30 ≤ rsi ≤ 60, and "neutral" in every other case. -/
theorem c1_trend_classification (cfg : Config) (closes : List ℚ) (a b r : ℚ)
    (hs : (analyzeStockTrend cfg closes).sma_short = some a)
    (hl : (analyzeStockTrend cfg closes).sma_long = some b)
    (hr : (analyzeStockTrend cfg closes).rsi = some r) :
    ((analyzeStockTrend cfg closes).trend = "bullish" ↔
      b < a ∧ 40 ≤ r ∧ r ≤ 70) ∧
    ((analyzeStockTrend cfg closes).trend = "bearish" ↔
      a < b ∧ 30 ≤ r ∧ r ≤ 60) ∧
    ((analyzeStockTrend cfg closes).trend = "neutral" ↔
      ¬(b < a ∧ 40 ≤ r ∧ r ≤ 70) ∧ ¬(a < b ∧ 30 ≤ r ∧ r ≤ 60)) := by
  by_cases hc : closes = []
  · subst hc; simp [analyzeStockTrend] at hs
  · simp only [analyzeStockTrend, if_neg hc] at hs hl hr ⊢
    rw [hs, hl, hr]
    simp only [oGT, oLT, oBetween]
    by_cases h1 : b < a ∧ 40 ≤ r ∧ r ≤ 70
    · rw [if_pos h1]
      exact ⟨⟨fun _ => h1, fun _ => rfl⟩,
        ⟨fun hstr => absurd hstr (by decide),
         fun h2 => absurd h2.1 (lt_asymm h1.1)⟩,
        ⟨fun hstr => absurd hstr (by decide), fun hn => absurd h1 hn.1⟩⟩
    · rw [if_neg h1]
      by_cases h2 : a < b ∧ 30 ≤ r ∧ r ≤ 60
      · rw [if_pos h2]
        exact ⟨⟨fun hstr => absurd hstr (by decide), fun hc1 => absurd hc1 h1⟩,
          ⟨fun _ => h2, fun _ => rfl⟩,
          ⟨fun hstr => absurd hstr (by decide), fun hn => absurd h2 hn.2⟩⟩
      · rw [if_neg h2]
        exact ⟨⟨fun hstr => absurd hstr (by decide), fun hc1 => absurd hc1 h1⟩,
          ⟨fun hstr => absurd hstr (by decide), fun hc2 => absurd hc2 h2⟩,
          ⟨fun _ => ⟨h1, h2⟩, fun _ => rfl⟩⟩

/-- Witness for C1: twenty constant closes give both averages 100 and
RSI 50, and the trend comes out "neutral" exactly as the biconditionals
say. -/
theorem c1_trend_classification_witness :
    ((analyzeStockTrend config closes20).sma_short = some 100 ∧
     (analyzeStockTrend config closes20).sma_long = some 100 ∧
     (analyzeStockTrend config closes20).rsi = some 50) ∧
    (((analyzeStockTrend config closes20).trend = "bullish" ↔
        (100 : ℚ) < 100 ∧ (40 : ℚ) ≤ 50 ∧ (50 : ℚ) ≤ 70) ∧
     ((analyzeStockTrend config closes20).trend = "bearish" ↔
        (100 : ℚ) < 100 ∧ (30 : ℚ) ≤ 50 ∧ (50 : ℚ) ≤ 60) ∧
     ((analyzeStockTrend config closes20).trend = "neutral" ↔
        ¬((100 : ℚ) < 100 ∧ (40 : ℚ) ≤ 50 ∧ (50 : ℚ) ≤ 70) ∧
        ¬((100 : ℚ) < 100 ∧ (30 : ℚ) ≤ 50 ∧ (50 : ℚ) ≤ 60))) := by
  have hne : closes20 ≠ [] := by decide
  have h1 : (analyzeStockTrend config closes20).sma_short = some 100 := by
    simp only [analyzeStockTrend, if_neg hne]
    norm_num [closes20, config, smaLast]
  have h2 : (analyzeStockTrend config closes20).sma_long = some 100 := by
    simp only [analyzeStockTrend, if_neg hne]
    norm_num [closes20, config, smaLast]
  have h3 : (analyzeStockTrend config closes20).rsi = some 50 := by
    simp only [analyzeStockTrend, if_neg hne]
    norm_num [closes20, config, rsiLast, diffs]
  exact ⟨⟨h1, h2, h3⟩,
    c1_trend_classification config closes20 100 100 50 h1 h2 h3⟩

/-- Claim C6 (amended): an empty series yields the label "no_data"; a
non-empty series shorter than `MA_LONG` yields "neutral" (the undefined
long moving average compares false, as NaN does); in either case the label
is neither bullish nor bearish, so no later pipeline stage runs for the
ticker. -/
theorem c6_short_series (cfg : Config) (today : ℤ) (ticker : String)
    (closes : List ℚ) (chain : List RawRecord)
    (h : closes.length < cfg.MA_LONG) :
    ((analyzeStockTrend cfg closes).trend
        = if closes = [] then "no_data" else "neutral") ∧
    (analyzeStockTrend cfg closes).trend ≠ "bullish" ∧
    (analyzeStockTrend cfg closes).trend ≠ "bearish" ∧
    runTicker cfg today ticker closes chain = .ok none := by
  have hlong : smaLast cfg.MA_LONG closes = none := smaLast_eq_none h
  by_cases hc : closes = []
  · subst hc
    refine ⟨by simp [analyzeStockTrend], ?_, ?_, ?_⟩ <;>
      simp [analyzeStockTrend, runTicker]
  · have htrend : (analyzeStockTrend cfg closes).trend = "neutral" := by
      simp only [analyzeStockTrend, if_neg hc]
      rw [hlong]
      simp
    refine ⟨by rw [htrend, if_neg hc], by simp [htrend], by simp [htrend], ?_⟩
    simp [runTicker, htrend]

/-- Counterexample to C6 as stated: the one-element series is strictly
shorter than `MA_LONG` = 20 but the label is "neutral", not "no_data". -/
theorem c6_short_series_counterexample :
    closes1.length < config.MA_LONG ∧
    (analyzeStockTrend config closes1).trend = "neutral" ∧
    (analyzeStockTrend config closes1).trend ≠ "no_data" := by
  have hne : closes1 ≠ [] := by decide
  have ht : (analyzeStockTrend config closes1).trend = "neutral" := by
    simp only [analyzeStockTrend, if_neg hne]
    norm_num [closes1, config, smaLast, rsiLast]
  exact ⟨by decide, ht, by rw [ht]; decide⟩

/-- Witness for the amended C6 at the concrete one-element series. -/
theorem c6_short_series_witness :
    closes1.length < config.MA_LONG ∧
    (((analyzeStockTrend config closes1).trend
        = if closes1 = [] then "no_data" else "neutral") ∧
     (analyzeStockTrend config closes1).trend ≠ "bullish" ∧
     (analyzeStockTrend config closes1).trend ≠ "bearish" ∧
     runTicker config today0 "TST" closes1 [] = .ok none) :=
  ⟨by decide, c6_short_series config today0 "TST" closes1 [] (by decide)⟩

theorem pyTruthy_ne_vnull {v : Val} (h : pyTruthy v) : v ≠ .vnull := by
  intro hv; rw [hv] at h; exact h

theorem parseDateYMD_ne_empty {s : String} {t : ℤ × ℤ × ℤ}
    (h : parseDateYMD s = some t) : s ≠ "" := by
  intro he
  rw [he] at h
  have h0 : parseDateYMD "" = none := by decide
  rw [h0] at h
  simp at h

theorem daysToExpiry_truthy {today : ℤ} {v : Val} {d : ℤ}
    (h : daysToExpiry today v = some d) : pyTruthy v := by
  cases v with
  | vnull => simp [daysToExpiry] at h
  | vnum q => simp [daysToExpiry] at h
  | vstr s =>
    rcases hp : parseDateYMD s with _ | t
    · simp [daysToExpiry, parseDateDays, hp] at h
    · exact parseDateYMD_ne_empty hp

/-- Claim C3: a normalized contract survives the filter iff its expiration
date is present and parses (yielding a dte in `[MIN_DTE, MAX_DTE]`), its
strike is present, its open interest is at least `MIN_OPEN_INTEREST`, its
delta is present, and its mark is present and positive; a contract failing
any conjunct is dropped (the filter returns `none`, it never raises). -/
theorem c3_contract_filter (cfg : Config) (today : ℤ) (c : NormContract) :
    (∃ e, processContract cfg today c = some e) ↔
      (c.expiration_date ≠ .vnull ∧
       (∃ dte, daysToExpiry today c.expiration_date = some dte ∧
          cfg.MIN_DTE ≤ dte ∧ dte ≤ cfg.MAX_DTE) ∧
       c.strike_price ≠ none ∧
       cfg.MIN_OPEN_INTEREST ≤ c.open_interest ∧
       c.delta ≠ none ∧
       (∃ m, c.mark = some m ∧ 0 < m)) := by
  constructor
  · rintro ⟨e, he⟩
    unfold processContract at he
    by_cases hg1 : ¬ pyTruthy c.expiration_date ∨ c.strike_price = none
    · rw [if_pos hg1] at he; simp at he
    · rw [if_neg hg1] at he
      push_neg at hg1
      rcases hd : daysToExpiry today c.expiration_date with _ | dte
      · rw [hd] at he; simp at he
      · rw [hd] at he
        simp only at he
        by_cases h2 : dte < cfg.MIN_DTE ∨ cfg.MAX_DTE < dte
        · rw [if_pos h2] at he; simp at he
        · rw [if_neg h2] at he
          push_neg at h2
          by_cases h3 : c.open_interest < cfg.MIN_OPEN_INTEREST
          · rw [if_pos h3] at he; simp at he
          · rw [if_neg h3] at he
            rcases hdel : c.delta with _ | d <;> rcases hm : c.mark with _ | m <;>
              rw [hdel, hm] at he <;> simp only at he
            · simp at he
            · simp at he
            · simp at he
            · by_cases h4 : m ≤ 0
              · rw [if_pos h4] at he; simp at he
              · exact ⟨pyTruthy_ne_vnull hg1.1, ⟨dte, rfl, h2.1, h2.2⟩,
                  hg1.2, not_lt.mp h3, by simp [hdel], ⟨m, rfl, not_le.mp h4⟩⟩
  · rintro ⟨-, ⟨dte, hd, hmin, hmax⟩, hstrike, hoi, hdelta, ⟨m, hm, hmpos⟩⟩
    have hexp : pyTruthy c.expiration_date := daysToExpiry_truthy hd
    obtain ⟨d, hdel⟩ := Option.ne_none_iff_exists'.mp hdelta
    refine ⟨⟨c, dte⟩, ?_⟩
    unfold processContract
    rw [if_neg (not_or.mpr ⟨not_not_intro hexp, hstrike⟩)]
    simp only [hd]
    rw [if_neg (not_or.mpr ⟨not_lt.mpr hmin, not_lt.mpr hmax⟩)]
    rw [if_neg (not_lt.mpr hoi)]
    simp only [hdel, hm]
    rw [if_neg (not_le.mpr hmpos)]

/-- Witness for C3: the concrete normalized contract `norm100` satisfies all
conjuncts at the witness date and indeed survives the filter. -/
theorem c3_contract_filter_witness :
    ∃ e, processContract config today0 norm100 = some e :=
  (c3_contract_filter config today0 norm100).mpr
    ⟨by decide, ⟨30, by decide, by decide, by decide⟩, by decide, by decide,
     by decide, ⟨2.5, rfl, by norm_num⟩⟩

theorem keyRel_refl (t : ℚ) (a : EligContract) : keyRel t a a :=
  Or.inr ⟨rfl, le_refl _⟩

theorem selectBest_mem {t : ℚ} {l : List EligContract} {e : EligContract}
    (h : selectBest t l = some e) : e ∈ l := by
  unfold selectBest at h
  have hp := List.perm_insertionSort (keyRel t) l
  rcases hs : List.insertionSort (keyRel t) l with _ | ⟨x, tl⟩
  · rw [hs] at h; simp at h
  · rw [hs] at h
    simp only [List.head?_cons, Option.some.injEq] at h
    rw [hs] at hp
    exact hp.subset (h ▸ List.mem_cons_self x tl)

theorem selectBest_min {t : ℚ} {l : List EligContract} {e : EligContract}
    (h : selectBest t l = some e) : ∀ d ∈ l, keyRel t e d := by
  intro d hd
  unfold selectBest at h
  have hsorted := List.sorted_insertionSort (keyRel t) l
  have hp := List.perm_insertionSort (keyRel t) l
  rcases hs : List.insertionSort (keyRel t) l with _ | ⟨x, tl⟩
  · rw [hs] at h; simp at h
  · rw [hs] at h
    simp only [List.head?_cons, Option.some.injEq] at h
    rw [hs] at hsorted hp
    subst h
    rcases List.mem_cons.mp (hp.symm.subset hd) with h1 | h1
    · exact h1 ▸ keyRel_refl t x
    · exact List.rel_of_sorted_cons hsorted d h1

theorem selectBest_isSome {t : ℚ} {l : List EligContract} (h : l ≠ []) :
    ∃ e, selectBest t l = some e := by
  unfold selectBest
  rcases hs : List.insertionSort (keyRel t) l with _ | ⟨x, tl⟩
  · have hp := List.perm_insertionSort (keyRel t) l
    rw [hs] at hp
    exact absurd hp.symm.eq_nil h
  · exact ⟨x, rfl⟩

/-- Claim C2: for every non-empty list of eligible contracts and signed
target delta, a contract is selected; it is an element of that list (hence
eligible) and minimizes the lexicographic key (delta distance ascending,
dte ascending): every other listed contract has strictly greater delta
distance, or equal distance and greater-or-equal dte. -/
theorem c2_contract_selection (target : ℚ) (l : List EligContract)
    (h : l ≠ []) :
    ∃ e, selectBest target l = some e ∧ e ∈ l ∧ ∀ d ∈ l,
      deltaDistance target e < deltaDistance target d ∨
        (deltaDistance target e = deltaDistance target d ∧ e.dte ≤ d.dte) := by
  obtain ⟨e, he⟩ := selectBest_isSome h
  exact ⟨e, he, selectBest_mem he, fun d hd => selectBest_min he d hd⟩

/-- Witness for C2, which is also the claim's concrete instance: against
target delta 0.35, of two eligible contracts with deltas 0.30 (dte 30) and
0.40 (dte 15) — tied at distance 0.05 — the one with the smaller dte is
selected. -/
theorem c2_contract_selection_witness :
    selectBest 0.35 [eligFar, eligNear] = some eligNear ∧
    (∃ e, selectBest 0.35 [eligFar, eligNear] = some e ∧
      e ∈ [eligFar, eligNear] ∧ ∀ d ∈ [eligFar, eligNear],
        deltaDistance 0.35 e < deltaDistance 0.35 d ∨
          (deltaDistance 0.35 e = deltaDistance 0.35 d ∧ e.dte ≤ d.dte)) := by
  have hk : ¬ keyRel 0.35 eligFar eligNear := by
    unfold keyRel deltaDistance eligFar eligNear testContract
    norm_num
  have hsel : selectBest 0.35 [eligFar, eligNear] = some eligNear := by
    simp [selectBest, List.insertionSort, List.orderedInsert, hk]
  exact ⟨hsel, c2_contract_selection 0.35 [eligFar, eligNear] (by decide)⟩

theorem parse_ok_of_deriveMark {r : RawRecord} {mk : Option ℚ}
    (h : deriveMark r.bid_price r.ask_price r.last_trade_price = .ok mk) :
    ∃ c, parseOptionContract r = .ok c ∧ c.mark = mk ∧
      c.open_interest = (if pyTruthy r.open_interest then
        (pyInt r.open_interest).getD 0 else 0) ∧
      c.delta = floatOrNone r.greeks_delta := by
  unfold parseOptionContract
  rw [h]
  exact ⟨_, rfl, rfl, rfl, rfl⟩

theorem parseOptionContract_ok_elim {r : RawRecord} {c : NormContract}
    (h : parseOptionContract r = .ok c) :
    deriveMark r.bid_price r.ask_price r.last_trade_price = .ok c.mark ∧
    c.open_interest = (if pyTruthy r.open_interest then
      (pyInt r.open_interest).getD 0 else 0) ∧
    c.delta = floatOrNone r.greeks_delta := by
  unfold parseOptionContract at h
  rcases hd : deriveMark r.bid_price r.ask_price r.last_trade_price with e | mk
  · rw [hd] at h; exact Except.noConfusion h
  · rw [hd] at h
    injection h with h2
    subst h2
    exact ⟨rfl, rfl, rfl⟩

theorem deriveMark_vnull_left (ask price : Val) :
    deriveMark .vnull ask price = .ok (lastTradeMark price) := by
  cases ask <;> rfl

theorem deriveMark_vnull_right (bid price : Val) :
    deriveMark bid .vnull price = .ok (lastTradeMark price) := by
  cases bid <;> rfl

theorem deriveMark_markSpec (bid ask price : Val)
    (hb : numOrNull bid) (ha : numOrNull ask) (hp : numOrNull price) :
    deriveMark bid ask price
      = .ok (markSpec (asNum bid) (asNum ask) (asNum price)) := by
  cases bid <;> cases ask <;> cases price <;>
    first
    | exact hb.elim
    | exact ha.elim
    | exact hp.elim
    | simp [deriveMark, markSpec, asNum, lastTradeMark, pyFloat]

/-- Claim C4: for a raw record whose bid, ask and last-trade fields are
numbers or absent, the derived mark is the bid/ask midpoint when both bid
and ask are present and ask > 0, else the last traded price when present,
else absent (the `markSpec` refinement of the spec's words). -/
theorem c4_mark_derivation (r : RawRecord)
    (hb : numOrNull r.bid_price) (ha : numOrNull r.ask_price)
    (hp : numOrNull r.last_trade_price) :
    ∃ c, parseOptionContract r = .ok c ∧
      c.mark = markSpec (asNum r.bid_price) (asNum r.ask_price)
        (asNum r.last_trade_price) := by
  obtain ⟨c, hc, hm, -, -⟩ :=
    parse_ok_of_deriveMark (deriveMark_markSpec _ _ _ hb ha hp)
  exact ⟨c, hc, hm⟩

/-- Witness for C4 covering the claim's three concrete examples:
bid 1.00/ask 1.20 → 1.10; absent bid with last trade 1.05 → 1.05;
ask 0 falls back to the last trade 1.05. -/
theorem c4_mark_derivation_witness :
    (∃ c, parseOptionContract rawMid = .ok c ∧
       c.mark = markSpec (asNum rawMid.bid_price) (asNum rawMid.ask_price)
         (asNum rawMid.last_trade_price)) ∧
    markSpec (asNum rawMid.bid_price) (asNum rawMid.ask_price)
      (asNum rawMid.last_trade_price) = some 1.1 ∧
    markSpec (asNum rawLast.bid_price) (asNum rawLast.ask_price)
      (asNum rawLast.last_trade_price) = some 1.05 ∧
    markSpec (asNum rawZeroAsk.bid_price) (asNum rawZeroAsk.ask_price)
      (asNum rawZeroAsk.last_trade_price) = some 1.05 := by
  refine ⟨c4_mark_derivation rawMid (by decide) (by decide) (by decide),
    ?_, ?_, ?_⟩ <;>
    norm_num [markSpec, asNum, rawMid, rawLast, rawZeroAsk, nullRaw]

/-- Claim C7 (the code bug): `parse_option_contract` is not total — on a
record whose ask is a non-numeric string while the bid is present, the
comparison `ask > 0` sits outside the `try` block and an uncaught
`TypeError` escapes normalization. -/
theorem c7_normalization_raises :
    parseOptionContract rawStrAsk = .error "TypeError" := rfl

theorem lastTradeMark_nonneg {price : Val} (hp : nonnegOrNull price) :
    ∀ m, lastTradeMark price = some m → 0 ≤ m := by
  cases price with
  | vnull => intro m hm; simp [lastTradeMark] at hm
  | vnum q =>
    intro m hm
    simp only [lastTradeMark, pyFloat, Option.some.injEq] at hm
    exact hm ▸ hp
  | vstr s => exact hp.elim

theorem deriveMark_nonneg (bid ask price : Val)
    (hb : nonnegOrNull bid) (ha : nonnegOrNull ask)
    (hp : nonnegOrNull price) :
    ∃ mk, deriveMark bid ask price = .ok mk ∧
      ∀ m, mk = some m → 0 ≤ m := by
  cases bid with
  | vstr s => exact hb.elim
  | vnull =>
    exact ⟨lastTradeMark price, deriveMark_vnull_left ask price,
      lastTradeMark_nonneg hp⟩
  | vnum b =>
    cases ask with
    | vstr s => exact ha.elim
    | vnull =>
      exact ⟨lastTradeMark price, deriveMark_vnull_right _ price,
        lastTradeMark_nonneg hp⟩
    | vnum a =>
      by_cases h : 0 < a
      · refine ⟨some ((b + a) / 2), ?_, ?_⟩
        · simp [deriveMark, pyFloat, if_pos h]
        · intro m hm
          have h2 := Option.some.inj hm
          have hbb : (0 : ℚ) ≤ b := hb
          have haa : (0 : ℚ) ≤ a := le_of_lt h
          exact h2 ▸ div_nonneg (add_nonneg hbb haa) (by norm_num)
      · refine ⟨lastTradeMark price, ?_, lastTradeMark_nonneg hp⟩
        simp [deriveMark, if_neg h]

/-- Claim C9 (amended): for a raw record whose bid, ask and last-trade
fields are non-negative numbers or absent, normalization succeeds and the
derived mark is either absent or non-negative.  (On arbitrary numeric
inputs the mark can be negative — see the counterexample.) -/
theorem c9_mark_nonneg (r : RawRecord)
    (hb : nonnegOrNull r.bid_price) (ha : nonnegOrNull r.ask_price)
    (hp : nonnegOrNull r.last_trade_price) :
    ∃ c, parseOptionContract r = .ok c ∧
      ∀ m, c.mark = some m → 0 ≤ m := by
  obtain ⟨mk, hd, hnn⟩ :=
    deriveMark_nonneg r.bid_price r.ask_price r.last_trade_price hb ha hp
  obtain ⟨c, hc, hm, -, -⟩ := parse_ok_of_deriveMark hd
  exact ⟨c, hc, fun m hmm => hnn m (hm.symm.trans hmm)⟩

/-- Witness for the amended C9 at a concrete record with only a last trade. -/
theorem c9_mark_nonneg_witness :
    ∃ c, parseOptionContract rawLast = .ok c ∧
      ∀ m, c.mark = some m → 0 ≤ m :=
  c9_mark_nonneg rawLast (by decide) (by decide)
    (by norm_num [rawLast, nullRaw, nonnegOrNull])

/-- Counterexample to C9 as stated: with bid −10 and ask 5 the derived mark
is the midpoint −2.5, which is negative. -/
theorem c9_mark_negative_counterexample :
    ∃ c, parseOptionContract rawNegQuote = .ok c ∧
      c.mark = some (-(5 / 2) : ℚ) ∧ (-(5 / 2) : ℚ) < 0 := by
  have hd : deriveMark rawNegQuote.bid_price rawNegQuote.ask_price
      rawNegQuote.last_trade_price = .ok (some (-(5 / 2))) := by
    norm_num [rawNegQuote, nullRaw, deriveMark, pyFloat]
  obtain ⟨c, hc, hm, -, -⟩ := parse_ok_of_deriveMark hd
  exact ⟨c, hc, hm, by norm_num⟩

theorem processContract_oi {cfg : Config} {today : ℤ} {c : NormContract}
    {e : EligContract} (h : processContract cfg today c = some e) :
    cfg.MIN_OPEN_INTEREST ≤ c.open_interest := by
  unfold processContract at h
  by_cases hg1 : ¬ pyTruthy c.expiration_date ∨ c.strike_price = none
  · rw [if_pos hg1] at h; simp at h
  · rw [if_neg hg1] at h
    rcases hd : daysToExpiry today c.expiration_date with _ | dte
    · rw [hd] at h; simp at h
    · rw [hd] at h
      simp only at h
      by_cases h2 : dte < cfg.MIN_DTE ∨ cfg.MAX_DTE < dte
      · rw [if_pos h2] at h; simp at h
      · rw [if_neg h2] at h
        by_cases h3 : c.open_interest < cfg.MIN_OPEN_INTEREST
        · rw [if_pos h3] at h; simp at h
        · exact not_lt.mp h3

/-- Claim C10: a raw record whose open-interest field is absent, null,
falsy or unconvertible normalizes to open interest 0 (not an absent value),
so such a contract can only pass the filter when `MIN_OPEN_INTEREST ≤ 0`. -/
theorem c10_open_interest_default (cfg : Config) (today : ℤ) (r : RawRecord)
    (c : NormContract)
    (h : ¬ pyTruthy r.open_interest ∨ pyInt r.open_interest = none)
    (hc : parseOptionContract r = .ok c) :
    c.open_interest = 0 ∧
    (∀ e, processContract cfg today c = some e →
      cfg.MIN_OPEN_INTEREST ≤ 0) := by
  obtain ⟨-, hoi, -⟩ := parseOptionContract_ok_elim hc
  have h0 : c.open_interest = 0 := by
    rcases h with h | h
    · rw [hoi, if_neg h]
    · by_cases ht : pyTruthy r.open_interest
      · rw [hoi, if_pos ht, h]; rfl
      · rw [hoi, if_neg ht]
  exact ⟨h0, fun e he => h0 ▸ processContract_oi he⟩

/-- Witness for C10: a string open interest ("abc") normalizes to 0 and,
with the repository's `MIN_OPEN_INTEREST` = 100, could only be eligible if
that minimum were non-positive. -/
theorem c10_open_interest_default_witness :
    parseOptionContract rawOiBad = .ok normOiBad ∧
    normOiBad.open_interest = 0 ∧
    (∀ e, processContract config today0 normOiBad = some e →
      config.MIN_OPEN_INTEREST ≤ 0) := by
  have hp : parseOptionContract rawOiBad = .ok normOiBad := rfl
  have h := c10_open_interest_default config today0 rawOiBad normOiBad
    (Or.inr rfl) hp
  exact ⟨hp, h.1, h.2⟩

theorem processContract_props {cfg : Config} {today : ℤ} {c : NormContract}
    {e : EligContract} (h : processContract cfg today c = some e) :
    e.c = c ∧ (∃ d, c.delta = some d) ∧ ∃ m, c.mark = some m ∧ 0 < m := by
  unfold processContract at h
  by_cases hg1 : ¬ pyTruthy c.expiration_date ∨ c.strike_price = none
  · rw [if_pos hg1] at h; simp at h
  · rw [if_neg hg1] at h
    rcases hd : daysToExpiry today c.expiration_date with _ | dte
    · rw [hd] at h; simp at h
    · rw [hd] at h
      simp only at h
      by_cases h2 : dte < cfg.MIN_DTE ∨ cfg.MAX_DTE < dte
      · rw [if_pos h2] at h; simp at h
      · rw [if_neg h2] at h
        by_cases h3 : c.open_interest < cfg.MIN_OPEN_INTEREST
        · rw [if_pos h3] at h; simp at h
        · rw [if_neg h3] at h
          rcases hdel : c.delta with _ | d <;> rcases hm : c.mark with _ | m <;>
            rw [hdel, hm] at h <;> simp only at h
          · simp at h
          · simp at h
          · simp at h
          · by_cases h4 : m ≤ 0
            · rw [if_pos h4] at h; simp at h
            · rw [if_neg h4] at h
              injection h with h5
              subst h5
              exact ⟨rfl, ⟨d, rfl⟩, ⟨m, rfl, not_le.mp h4⟩⟩

theorem parseChain_mem {cfg : Config} {today : ℤ} {chain : List RawRecord}
    {l : List EligContract} (h : parseChain cfg today chain = .ok l) :
    ∀ e ∈ l, ∃ c, processContract cfg today c = some e := by
  induction chain generalizing l with
  | nil =>
    simp only [parseChain] at h
    injection h with h2
    subst h2
    intro e he
    simp at he
  | cons r rest ih =>
    simp only [parseChain] at h
    split at h
    next e0 heq => exact Except.noConfusion h
    next c heq =>
      split at h
      next e0 heq2 => exact Except.noConfusion h
      next tail heq2 =>
        split at h
        next heq3 =>
          injection h with h2
          subst h2
          exact ih heq2
        next ec heq3 =>
          injection h with h2
          subst h2
          intro e he
          rcases List.mem_cons.mp he with rfl | he2
          · exact ⟨c, heq3⟩
          · exact ih heq2 e he2

theorem pick_ok_some_inv {cfg : Config} {today : ℤ} {tk : String}
    {ti : TrendResult} {chain : List RawRecord} {s : Signal}
    (h : pickOptionForTrend cfg today tk ti chain = .ok (some s)) :
    ∃ parsed target best,
      parseChain cfg today chain = .ok parsed ∧
      selectBest target parsed = some best ∧
      (ti.trend = "bullish" ∨ ti.trend = "bearish") ∧
      s = mkSignal tk ti.trend
        (orOpt (extractUnderlying chain) ti.latest_close) best := by
  unfold pickOptionForTrend at h
  by_cases hg : ti.trend ≠ "bullish" ∧ ti.trend ≠ "bearish"
  · rw [if_pos hg] at h; simp at h
  · rw [if_neg hg] at h
    by_cases hch : chain = []
    · rw [if_pos hch] at h; simp at h
    · rw [if_neg hch] at h
      split at h
      next e0 heq => exact Except.noConfusion h
      next parsed heq =>
        split at h
        next hpE => simp at h
        next hpE =>
          split at h
          next heq2 => simp at h
          next best heq2 =>
            injection h with h2
            injection h2 with h3
            have htr : ti.trend = "bullish" ∨ ti.trend = "bearish" := by
              rcases not_and_or.mp hg with hg1 | hg1
              · exact Or.inl (not_not.mp hg1)
              · exact Or.inr (not_not.mp hg1)
            exact ⟨parsed, _, best, heq, heq2, htr, h3.symm⟩

theorem mkSignal_fields (tk tr : String) (u : Option ℚ)
    (best : EligContract) :
    (mkSignal tk tr u best).ticker = tk ∧
    (mkSignal tk tr u best).trend = tr ∧
    (mkSignal tk tr u best).underlying_price = u ∧
    (mkSignal tk tr u best).delta = best.c.delta ∧
    (mkSignal tk tr u best).mark = best.c.mark ∧
    (mkSignal tk tr u best).dte = best.dte := by
  rcases u with _ | u0 <;> rcases hm : best.c.mark with _ | m
  · simp [mkSignal, hm]
  · simp [mkSignal, hm]
  · simp [mkSignal, hm]
  · simp only [mkSignal, hm]
    split_ifs <;> simp

theorem mkSignal_proj_none (tk tr : String) (best : EligContract) :
    (mkSignal tk tr none best).projected_underlying_change = none ∧
    (mkSignal tk tr none best).projected_option_change = none ∧
    (mkSignal tk tr none best).projected_return_pct = none := by
  rcases hm : best.c.mark with _ | m <;> simp [mkSignal, hm]

theorem mkSignal_proj_some (tk tr : String) (u0 : ℚ) (best : EligContract)
    (m : ℚ) (hm : best.c.mark = some m) (hm0 : m ≠ 0) :
    (mkSignal tk tr (some u0) best).projected_underlying_change
      = some (u0 * (if tr = "bearish" then -0.05 else 0.05)) ∧
    (mkSignal tk tr (some u0) best).projected_option_change
      = some (best.c.delta.getD 0
          * (u0 * (if tr = "bearish" then -0.05 else 0.05))) ∧
    (mkSignal tk tr (some u0) best).projected_return_pct
      = some (best.c.delta.getD 0
          * (u0 * (if tr = "bearish" then -0.05 else 0.05)) / m * 100) := by
  simp [mkSignal, hm, hm0]

/-- Claim C5: every produced signal with a known underlying price uses
move_pct = +0.05 for a bullish trend and −0.05 for a bearish one, and its
projection fields satisfy projected_underlying_change = underlying × move,
projected_option_change = delta × projected_underlying_change, and
projected_return_pct = projected_option_change / mark × 100. -/
theorem c5_return_projection (cfg : Config) (today : ℤ) (tk : String)
    (ti : TrendResult) (chain : List RawRecord) (s : Signal) (u : ℚ)
    (hp : pickOptionForTrend cfg today tk ti chain = .ok (some s))
    (hu : s.underlying_price = some u) :
    ∃ d m, s.delta = some d ∧ s.mark = some m ∧ 0 < m ∧
      s.projected_underlying_change
        = some (u * (if s.trend = "bearish" then -0.05 else 0.05)) ∧
      s.projected_option_change
        = some (d * (u * (if s.trend = "bearish" then -0.05 else 0.05))) ∧
      s.projected_return_pct
        = some (d * (u * (if s.trend = "bearish" then -0.05 else 0.05))
            / m * 100) := by
  obtain ⟨parsed, target, best, hpc, hsb, -, hs⟩ := pick_ok_some_inv hp
  obtain ⟨c0, hc0⟩ := parseChain_mem hpc best (selectBest_mem hsb)
  obtain ⟨hec, ⟨d, hd⟩, ⟨m, hm, hm0⟩⟩ := processContract_props hc0
  have hbd : best.c.delta = some d := by rw [hec]; exact hd
  have hbm : best.c.mark = some m := by rw [hec]; exact hm
  subst hs
  obtain ⟨-, -, hund, -, -, -⟩ :=
    mkSignal_fields tk ti.trend (orOpt (extractUnderlying chain) ti.latest_close) best
  have hor : orOpt (extractUnderlying chain) ti.latest_close = some u := by
    rw [← hund]; exact hu
  rw [hor]
  obtain ⟨-, htr, -, hdel, hmark, -⟩ := mkSignal_fields tk ti.trend (some u) best
  obtain ⟨hp1, hp2, hp3⟩ := mkSignal_proj_some tk ti.trend u best m hbm hm0.ne'
  refine ⟨d, m, ?_, ?_, hm0, ?_, ?_, ?_⟩
  · rw [hdel, hbd]
  · rw [hmark, hbm]
  · rw [hp1, htr]
  · rw [hp2, htr, hbd]; rfl
  · rw [hp3, htr, hbd]; rfl

/-- Claim C8: in every produced signal the three projection fields are
jointly present or jointly absent: all three are omitted exactly when the
underlying price is absent or the mark is zero/absent, and all three are
present otherwise. -/
theorem c8_projection_fields (cfg : Config) (today : ℤ) (tk : String)
    (ti : TrendResult) (chain : List RawRecord) (s : Signal)
    (hp : pickOptionForTrend cfg today tk ti chain = .ok (some s)) :
    ((s.projected_underlying_change = none ∧
      s.projected_option_change = none ∧ s.projected_return_pct = none) ↔
      (s.underlying_price = none ∨ s.mark = none ∨ s.mark = some 0)) ∧
    ((s.projected_underlying_change ≠ none ∧
      s.projected_option_change ≠ none ∧ s.projected_return_pct ≠ none) ↔
      ¬(s.underlying_price = none ∨ s.mark = none ∨ s.mark = some 0)) := by
  obtain ⟨parsed, target, best, hpc, hsb, -, hs⟩ := pick_ok_some_inv hp
  obtain ⟨c0, hc0⟩ := parseChain_mem hpc best (selectBest_mem hsb)
  obtain ⟨hec, -, ⟨m, hm, hm0⟩⟩ := processContract_props hc0
  have hbm : best.c.mark = some m := by rw [hec]; exact hm
  subst hs
  rcases hor : orOpt (extractUnderlying chain) ti.latest_close with _ | u0
  · obtain ⟨hq1, hq2, hq3⟩ := mkSignal_proj_none tk ti.trend best
    obtain ⟨-, -, hund, -, hmark, -⟩ := mkSignal_fields tk ti.trend none best
    rw [hq1, hq2, hq3, hund, hmark]
    simp
  · obtain ⟨hq1, hq2, hq3⟩ :=
      mkSignal_proj_some tk ti.trend u0 best m hbm hm0.ne'
    obtain ⟨-, -, hund, -, hmark, -⟩ := mkSignal_fields tk ti.trend (some u0) best
    rw [hq1, hq2, hq3, hund, hmark, hbm]
    simp [hm0.ne']

theorem pick_concrete :
    pickOptionForTrend config today0 "AAPL" trendInfo0 [raw100]
      = .ok (some sig100) := by
  have hdte : daysToExpiry today0 (Val.vstr "2026-11-11") = some 30 := by decide
  have hstr1 : ("O:AAPL261111C00150000" : String) ≠ "" := by decide
  have hstr2 : ("2026-11-11" : String) ≠ "" := by decide
  have hstr3 : ("bullish" : String) ≠ "bearish" := by decide
  have hparse : parseOptionContract raw100 = .ok norm100 := by
    norm_num [parseOptionContract, deriveMark, lastTradeMark, pyFloat,
      floatOrNone, orVal, pyTruthy, pyInt, truncQ, raw100, nullRaw, norm100,
      hstr1]
  have hproc : processContract config today0 norm100 = some elig100 := by
    norm_num [processContract, norm100, elig100, config, pyTruthy, hdte, hstr2,
      Option.some_ne_none]
  have hchain : parseChain config today0 [raw100] = .ok [elig100] := by
    simp [parseChain, hparse, hproc]
  have hsel : selectBest config.TARGET_DELTA_CALL [elig100] = some elig100 := by
    simp [selectBest, List.insertionSort, List.orderedInsert]
  have hext : extractUnderlying [raw100] = some 100 := by
    simp [extractUnderlying, raw100, nullRaw, pyFloat]
  have hmk : mkSignal "AAPL" "bullish" (some 100) elig100 = sig100 := by
    norm_num [mkSignal, elig100, norm100, sig100, hstr3]
  norm_num [pickOptionForTrend, hchain, hsel, hext, hmk, orOpt, trendInfo0]

/-- Witness for C5: the concrete bullish run with underlying 100, selected
delta 0.30 and mark 2.50 produces projections 5.0, 1.5 and 60.0, in the
shape the claim states. -/
theorem c5_return_projection_witness :
    pickOptionForTrend config today0 "AAPL" trendInfo0 [raw100]
      = .ok (some sig100) ∧
    sig100.underlying_price = some 100 ∧
    sig100.projected_underlying_change = some 5 ∧
    sig100.projected_option_change = some 1.5 ∧
    sig100.projected_return_pct = some 60 ∧
    (∃ d m, sig100.delta = some d ∧ sig100.mark = some m ∧ 0 < m ∧
      sig100.projected_underlying_change
        = some (100 * (if sig100.trend = "bearish" then -0.05 else 0.05)) ∧
      sig100.projected_option_change
        = some (d * (100 * (if sig100.trend = "bearish" then -0.05 else 0.05))) ∧
      sig100.projected_return_pct
        = some (d * (100 * (if sig100.trend = "bearish" then -0.05 else 0.05))
            / m * 100)) :=
  ⟨pick_concrete, rfl, rfl, rfl, rfl,
   c5_return_projection config today0 "AAPL" trendInfo0 [raw100] sig100 100
     pick_concrete rfl⟩

/-- Witness for C8 at the same concrete pipeline run: the three projection
fields of the produced signal are jointly present, and the absence condition
is false. -/
theorem c8_projection_fields_witness :
    pickOptionForTrend config today0 "AAPL" trendInfo0 [raw100]
      = .ok (some sig100) ∧
    (((sig100.projected_underlying_change = none ∧
       sig100.projected_option_change = none ∧
       sig100.projected_return_pct = none) ↔
       (sig100.underlying_price = none ∨ sig100.mark = none ∨
        sig100.mark = some 0)) ∧
     ((sig100.projected_underlying_change ≠ none ∧
       sig100.projected_option_change ≠ none ∧
       sig100.projected_return_pct ≠ none) ↔
       ¬(sig100.underlying_price = none ∨ sig100.mark = none ∨
         sig100.mark = some 0))) :=
  ⟨pick_concrete,
   c8_projection_fields config today0 "AAPL" trendInfo0 [raw100] sig100
     pick_concrete⟩

end OptionsBot
